import Mathlib

/-!
Verification development for the WeatherWarnDesktop repository.

The Python modules src/api_client.py, src/config.py and src/main.py are
shallowly embedded below.  Numbers that Python stores as floats are modelled
as rationals; the builtin round is modelled through the Mathlib round
function (the development relies only on monotonicity of rounding and on
inputs where every rounding mode agrees, so the half-tie convention is
immaterial).  The local-calendar-date of an epoch timestamp,
datetime.fromtimestamp(dt).date(), is modelled as the epoch day number for a
fixed timezone offset of zero; the claims depend only on this map being
monotone and on its equality pattern, which hold for any fixed offset.
The iteration order of a Python set is not specified, so it is modelled as a
parameter: any enumeration of the distinct elements of the underlying list.
-/

namespace Weather

/-- Python round(x, 1): the value rounded to one decimal place. -/
def round1 (x : ℚ) : ℚ := ((round (x * 10) : ℤ) : ℚ) / 10

/-- A rational is a one-decimal value when it is an integer divided by 10. -/
def OneDecimal (x : ℚ) : Prop := ∃ k : ℤ, x = (k : ℚ) / 10

/-- Calendar date of an epoch timestamp, modelling
datetime.fromtimestamp(dt).date() as the epoch day number. -/
def dateOf (dt : Nat) : Nat := dt / 86400

/-- The first (and only used) entry of the weather array of a sample. -/
structure WeatherCond where
  main : String
  description : String
  icon : String
deriving DecidableEq, Inhabited

/-- One three-hour forecast item of the provider payload: the fields of
data.list[i] that the code reads. -/
structure Sample where
  dt : Nat
  temp : ℚ
  humidity : ℤ
  wind_speed : ℚ
  weather : WeatherCond
deriving DecidableEq, Inhabited

/-- The daily record built by _aggregate_day_forecast. -/
structure ForecastDay where
  date : Nat
  temp_min : ℚ
  temp_max : ℚ
  temp_avg : ℚ
  description : String
  main : String
  icon : String
  humidity : ℤ
  wind_speed : ℚ
deriving DecidableEq

/-- The fields of the current-weather provider payload that
_process_current_weather reads.  Optional JSON fields are Option. -/
structure CurrentPayload where
  name : String
  country : String
  temp : ℚ
  feels_like : ℚ
  temp_min : ℚ
  temp_max : ℚ
  humidity : ℤ
  pressure : ℤ
  wind_speed : ℚ
  wind_deg : Option ℤ
  weather : WeatherCond
  clouds : ℤ
  visibility : Option ℚ
  sunrise : Nat
  sunset : Nat
  timezone : Int
deriving DecidableEq

/-- The record built by _process_current_weather.  The capture timestamp
field (datetime.now) reads the wall clock and is omitted. -/
structure WeatherSnapshot where
  city : String
  country : String
  temperature : ℚ
  feels_like : ℚ
  temp_min : ℚ
  temp_max : ℚ
  humidity : ℤ
  pressure : ℤ
  wind_speed : ℚ
  wind_direction : ℤ
  description : String
  main : String
  icon : String
  clouds : ℤ
  visibility : ℚ
  sunrise : Nat
  sunset : Nat
  timezone : Int
deriving DecidableEq

/-- The forecast provider payload: the code only reads data.list. -/
structure ForecastPayload where
  list : List Sample

/-- Python max(iterable, key=key): the first element of the iteration order
whose key is maximal (a later element replaces the current best only when
its key is strictly greater).  Returns none on an empty iterable, where
Python raises ValueError. -/
def pythonMax (key : α → Nat) : List α → Option α
  | [] => none
  | x :: xs => some (xs.foldl (fun b a => if key b < key a then a else b) x)

/-- Python min of a nonempty list of floats; 0 stands for the ValueError
raised on an empty list (proved unreachable). -/
def pyMin : List ℚ → ℚ
  | [] => 0
  | x :: xs => xs.foldl min x

/-- Python max of a nonempty list of floats; 0 stands for the ValueError
raised on an empty list (proved unreachable). -/
def pyMax : List ℚ → ℚ
  | [] => 0
  | x :: xs => xs.foldl max x

/-- Character stream of Python str.title(): an alphabetic character is
uppercased when the previous character is not alphabetic and lowercased
otherwise. -/
def titleChars : Bool → List Char → List Char
  | _, [] => []
  | prev, c :: cs =>
      (if c.isAlpha then (if prev then c.toLower else c.toUpper) else c)
        :: titleChars c.isAlpha cs

/-- Python str.title(). -/
def pyTitle (s : String) : String := String.mk (titleChars false s.data)

/-- A set-iteration order: stands for the unspecified order in which Python
enumerates set(conditions). -/
def SetOrder : Type := List String → List String

/-- A faithful set-iteration order enumerates exactly the distinct elements
of the underlying list, in some order. -/
def SetOrderOK (σ : SetOrder) : Prop := ∀ l : List String, (σ l).Perm l.dedup

/-- One admissible set-iteration order. -/
def dedupOrder : SetOrder := fun l => l.dedup

/-- Another admissible set-iteration order, enumerating in reverse. -/
def revOrder : SetOrder := fun l => l.dedup.reverse

/-- The main_condition computation of _aggregate_day_forecast:
max(set(conditions), key=conditions.count) under set-iteration order σ.
The empty string stands for the ValueError raised on an empty run (proved
unreachable). -/
def dominant_condition (σ : SetOrder) (day_data : List Sample) : String :=
  let conditions := day_data.map (fun s => s.weather.main)
  (pythonMax (fun c => conditions.count c) (σ conditions)).getD ""

/-- Embedding of WeatherAPIClient._aggregate_day_forecast.  The for-loop
searching the first sample whose group matches main_condition is find?; when
no sample matches, Python would hit an undefined variable, modelled by the
default sample (proved unreachable). -/
def aggregate_day_forecast (σ : SetOrder) (day_data : List Sample) : ForecastDay :=
  let temps := day_data.map (fun s => s.temp)
  let main_condition := dominant_condition σ day_data
  let chosen := ((day_data.find? (fun s => s.weather.main == main_condition)).getD default).weather
  { date := dateOf day_data.headI.dt
    temp_min := round1 (pyMin temps)
    temp_max := round1 (pyMax temps)
    temp_avg := round1 (temps.sum / (temps.length : ℚ))
    description := pyTitle chosen.description
    main := main_condition
    icon := chosen.icon
    humidity := round (((day_data.map (fun s => s.humidity)).sum : ℚ) / (day_data.length : ℚ))
    wind_speed := round1 ((day_data.map (fun s => s.wind_speed)).sum / (day_data.length : ℚ)) }

/-- The for-loop of _process_forecast with its three state variables:
remaining items, current_date, day_data, daily_forecasts.  The final match
arm also performs the trailing last-day append of the Python code. -/
def process_forecast_loop (σ : SetOrder) (days : Nat) :
    List Sample → Option Nat → List Sample → List ForecastDay → List ForecastDay
  | [], _, day_data, daily =>
      if day_data ≠ [] ∧ daily.length < days then daily ++ [aggregate_day_forecast σ day_data]
      else daily
  | item :: rest, curr, day_data, daily =>
      if curr = some (dateOf item.dt) then
        process_forecast_loop σ days rest curr (day_data ++ [item]) daily
      else
        process_forecast_loop σ days rest (some (dateOf item.dt)) [item]
          (if day_data ≠ [] ∧ daily.length < days then
            daily ++ [aggregate_day_forecast σ day_data]
          else daily)

/-- Embedding of WeatherAPIClient._process_forecast. -/
def process_forecast (σ : SetOrder) (samples : List Sample) (days : Nat) : List ForecastDay :=
  (process_forecast_loop σ days samples none [] []).take days

/-- Maximal contiguous runs of samples sharing calendar date d, starting
from the partial run given as second argument. -/
def dateRunsFrom (d : Nat) (run : List Sample) : List Sample → List (List Sample)
  | [] => [run]
  | s :: rest =>
      if dateOf s.dt = d then dateRunsFrom d (run ++ [s]) rest
      else run :: dateRunsFrom (dateOf s.dt) [s] rest

/-- Partition of a sample sequence into maximal contiguous runs sharing the
same calendar date: the grouping structure computed by the
_process_forecast loop. -/
def dateRuns : List Sample → List (List Sample)
  | [] => []
  | s :: rest => dateRunsFrom (dateOf s.dt) [s] rest

/-- The kinds of requests-library transport exception the code
distinguishes. -/
inductive TransportExc
  | timeoutE
  | connectionE
  | otherE
deriving DecidableEq

/-- Outcome of session.get: a response with status, text body and parsed
JSON, or a transport exception. -/
inductive HttpResult (α : Type)
  | response (status : Nat) (body : String) (json : α)
  | exc (e : TransportExc)

/-- One constructor per raise site of WeatherAPIError, carrying exactly the
data interpolated into the corresponding message string. -/
inductive Fault
  | currentNotFound (city : String)
  | currentUnauthorized
  | currentApiError (status : Nat) (body : String)
  | currentTimeout
  | currentConnectionError
  | currentNetworkError
  | forecastNotFound (city : String)
  | forecastApiError (status : Nat)
  | forecastFetchError (e : TransportExc)
deriving DecidableEq

/-- Modelled from the spec: the fault taxonomy calls Unauthorized exactly
the invalid-credential classification, raised by the dedicated 401 branch. -/
def Fault.unauthorizedKind : Fault → Bool
  | .currentUnauthorized => true
  | _ => false

/-- Modelled from the spec: the fault taxonomy calls Timeout exactly the
dedicated request-timed-out classification. -/
def Fault.timeoutKind : Fault → Bool
  | .currentTimeout => true
  | _ => false

/-- Embedding of WeatherAPIClient._process_current_weather. -/
def process_current_weather (data : CurrentPayload) : WeatherSnapshot :=
  { city := data.name
    country := data.country
    temperature := round1 data.temp
    feels_like := round1 data.feels_like
    temp_min := round1 data.temp_min
    temp_max := round1 data.temp_max
    humidity := data.humidity
    pressure := data.pressure
    wind_speed := round1 data.wind_speed
    wind_direction := data.wind_deg.getD 0
    description := pyTitle data.weather.description
    main := data.weather.main
    icon := data.weather.icon
    clouds := data.clouds
    visibility := (data.visibility.getD 0) / 1000
    sunrise := data.sunrise
    sunset := data.sunset
    timezone := data.timezone }

/-- Embedding of WeatherAPIClient.get_current_weather, given the transport
outcome of the request. -/
def get_current_weather (city : String) (r : HttpResult CurrentPayload) :
    Except Fault WeatherSnapshot :=
  match r with
  | .response st body json =>
      if st = 404 then .error (.currentNotFound city)
      else if st = 401 then .error .currentUnauthorized
      else if st ≠ 200 then .error (.currentApiError st body)
      else .ok (process_current_weather json)
  | .exc .timeoutE => .error .currentTimeout
  | .exc .connectionE => .error .currentConnectionError
  | .exc .otherE => .error .currentNetworkError

/-- The query parameters that get_forecast sends. -/
structure ForecastRequest where
  q : String
  units : String
  cnt : Nat

/-- The params dictionary built by get_forecast. -/
def forecast_request (city units : String) (days : Nat) : ForecastRequest :=
  { q := city, units := units, cnt := min (days * 8) 40 }

/-- Embedding of WeatherAPIClient.get_forecast, given the transport outcome
of the request.  Every transport exception is a requests RequestException
and lands in the single generic handler. -/
def get_forecast (σ : SetOrder) (city : String) (days : Nat)
    (r : HttpResult ForecastPayload) : Except Fault (List ForecastDay) :=
  match r with
  | .response st _ json =>
      if st = 404 then .error (.forecastNotFound city)
      else if st ≠ 200 then .error (.forecastApiError st)
      else .ok (process_forecast σ json.list days)
  | .exc e => .error (.forecastFetchError e)

/-- Embedding of WeatherApp.toggle_temperature_unit as a function on the
session unit string. -/
def toggle_temperature_unit (u : String) : String :=
  if u = "celsius" then "fahrenheit" else "celsius"

/-- Sample number i of the concrete inputs: three-hour spacing, so eight
samples per calendar day. -/
def mkSample (i : Nat) : Sample :=
  { dt := i * 10800
    temp := (15 : ℚ) + i
    humidity := 50 + (i % 7 : ℕ)
    wind_speed := (3 : ℚ) + (i % 5 : ℕ)
    weather := { main := "Clear", description := "clear sky", icon := "01d" } }

/-- Forty samples spanning exactly five calendar days, eight per day. -/
def ex40 : List Sample := (List.range 40).map mkSample

/-- Seven samples on seven consecutive calendar days. -/
def ex7 : List Sample := (List.range 7).map (fun i => mkSample (8 * i))

/-- Six samples on six consecutive calendar days. -/
def ex6 : List Sample := (List.range 6).map (fun i => mkSample (8 * i))

/-- A sample with a given condition group, for the tie-break runs. -/
def condSample (i : Nat) (m : String) : Sample :=
  { dt := i * 10800
    temp := 20
    humidity := 60
    wind_speed := 4
    weather := { main := m, description := m, icon := "02d" } }

/-- A run of four samples with condition groups Rain, Clouds, Rain, Clouds:
a two-against-two tie. -/
def tieRun : List Sample :=
  [condSample 0 "Rain", condSample 1 "Clouds", condSample 2 "Rain", condSample 3 "Clouds"]

/-- A current-weather payload with every optional field present;
visibility is 10000 meters. -/
def payVis10000 : CurrentPayload :=
  { name := "London"
    country := "GB"
    temp := 151 / 10
    feels_like := 148 / 10
    temp_min := 13
    temp_max := 17
    humidity := 72
    pressure := 1013
    wind_speed := 41 / 10
    wind_deg := some 250
    weather := { main := "Clouds", description := "scattered clouds", icon := "03d" }
    clouds := 40
    visibility := some 10000
    sunrise := 1700000000
    sunset := 1700040000
    timezone := 0 }

/-- The same payload with visibility 1234 meters. -/
def payVis1234 : CurrentPayload :=
  { payVis10000 with visibility := some 1234 }

/-- The same payload with both optional fields absent. -/
def payNoOpt : CurrentPayload :=
  { payVis10000 with visibility := none, wind_deg := none }

/-! Helper lemmas about rounding. -/

theorem round1_mono {a b : ℚ} (h : a ≤ b) : round1 a ≤ round1 b := by
  unfold round1
  have hr : round (a * 10) ≤ round (b * 10) := by
    rw [round_eq, round_eq]
    exact Int.floor_mono (by linarith)
  have hrq : ((round (a * 10) : ℤ) : ℚ) ≤ ((round (b * 10) : ℤ) : ℚ) := by exact_mod_cast hr
  linarith

theorem oneDecimal_round1 (x : ℚ) : OneDecimal (round1 x) :=
  ⟨round (x * 10), rfl⟩

/-! Helper lemmas about the Python min, max and list mean. -/

theorem foldl_min_le_init : ∀ (xs : List ℚ) (x : ℚ), xs.foldl min x ≤ x
  | [], x => le_refl x
  | a :: xs, x =>
      le_trans (foldl_min_le_init xs (min x a)) (min_le_left x a)

theorem foldl_min_le_mem : ∀ (xs : List ℚ) (x y : ℚ), y ∈ xs → xs.foldl min x ≤ y := by
  intro xs
  induction xs with
  | nil => intro x y hy; exact absurd hy (List.not_mem_nil y)
  | cons a xs ih =>
      intro x y hy
      rw [List.foldl_cons]
      rcases List.mem_cons.mp hy with h1 | h1
      · subst h1
        exact le_trans (foldl_min_le_init xs (min x y)) (min_le_right x y)
      · exact ih (min x a) y h1

theorem pyMin_le {l : List ℚ} (h : l ≠ []) : ∀ y ∈ l, pyMin l ≤ y := by
  cases l with
  | nil => exact absurd rfl h
  | cons x xs =>
      intro y hy
      rcases List.mem_cons.mp hy with h1 | h1
      · subst h1; exact foldl_min_le_init xs y
      · exact foldl_min_le_mem xs x y h1

theorem init_le_foldl_max : ∀ (xs : List ℚ) (x : ℚ), x ≤ xs.foldl max x
  | [], x => le_refl x
  | a :: xs, x =>
      le_trans (le_max_left x a) (init_le_foldl_max xs (max x a))

theorem mem_le_foldl_max : ∀ (xs : List ℚ) (x y : ℚ), y ∈ xs → y ≤ xs.foldl max x := by
  intro xs
  induction xs with
  | nil => intro x y hy; exact absurd hy (List.not_mem_nil y)
  | cons a xs ih =>
      intro x y hy
      rw [List.foldl_cons]
      rcases List.mem_cons.mp hy with h1 | h1
      · subst h1
        exact le_trans (le_max_right x y) (init_le_foldl_max xs (max x y))
      · exact ih (max x a) y h1

theorem le_pyMax {l : List ℚ} (h : l ≠ []) : ∀ y ∈ l, y ≤ pyMax l := by
  cases l with
  | nil => exact absurd rfl h
  | cons x xs =>
      intro y hy
      rcases List.mem_cons.mp hy with h1 | h1
      · subst h1; exact init_le_foldl_max xs y
      · exact mem_le_foldl_max xs x y h1

theorem pyMin_le_avg {l : List ℚ} (h : l ≠ []) : pyMin l ≤ l.sum / (l.length : ℚ) := by
  have hpos : (0 : ℚ) < (l.length : ℚ) := by
    have : 0 < l.length := List.length_pos.mpr h
    exact_mod_cast this
  rw [le_div_iff₀ hpos]
  have hb := List.card_nsmul_le_sum l (pyMin l) (pyMin_le h)
  rw [nsmul_eq_mul] at hb
  linarith

theorem avg_le_pyMax {l : List ℚ} (h : l ≠ []) : l.sum / (l.length : ℚ) ≤ pyMax l := by
  have hpos : (0 : ℚ) < (l.length : ℚ) := by
    have : 0 < l.length := List.length_pos.mpr h
    exact_mod_cast this
  rw [div_le_iff₀ hpos]
  have hb := List.sum_le_card_nsmul l (pyMax l) (le_pyMax h)
  rw [nsmul_eq_mul] at hb
  linarith

/-! Helper lemmas about pythonMax and the dominant condition. -/

theorem foldl_choice_mem (key : α → Nat) :
    ∀ (xs : List α) (x : α),
      xs.foldl (fun b a => if key b < key a then a else b) x ∈ x :: xs := by
  intro xs
  induction xs with
  | nil => intro x; simp
  | cons a xs ih =>
      intro x
      rw [List.foldl_cons]
      by_cases hk : key x < key a
      · rw [if_pos hk]
        rcases List.mem_cons.mp (ih a) with h1 | h1
        · simp [h1]
        · simp [h1]
      · rw [if_neg hk]
        rcases List.mem_cons.mp (ih x) with h1 | h1
        · simp [h1]
        · simp [h1]

theorem pythonMax_mem (key : α → Nat) {l : List α} {m : α}
    (h : pythonMax key l = some m) : m ∈ l := by
  cases l with
  | nil => exact absurd h (by simp [pythonMax])
  | cons x xs =>
      have hm : xs.foldl (fun b a => if key b < key a then a else b) x = m := by
        simpa [pythonMax] using h
      exact hm ▸ foldl_choice_mem key xs x

theorem pythonMax_setOrder_mem (key : String → Nat) {σ : SetOrder} (hσ : SetOrderOK σ)
    {conditions : List String} (hcne : conditions ≠ []) :
    (pythonMax key (σ conditions)).getD "" ∈ conditions := by
  have hperm := hσ conditions
  have hσne : σ conditions ≠ [] := by
    intro hnil
    rw [hnil] at hperm
    have hd : conditions.dedup = [] := hperm.symm.eq_nil
    cases hcc : conditions with
    | nil => exact hcne hcc
    | cons c cs =>
        have hcmem : c ∈ conditions.dedup :=
          List.mem_dedup.mpr (by rw [hcc]; exact List.mem_cons_self c cs)
        rw [hd] at hcmem
        exact absurd hcmem (List.not_mem_nil c)
  cases hσc : σ conditions with
  | nil => exact absurd hσc hσne
  | cons y ys =>
      have hsome : pythonMax key (σ conditions)
          = some (ys.foldl (fun b a => if key b < key a then a else b) y) := by
        rw [hσc]; rfl
      have hmem := pythonMax_mem key hsome
      simp only [pythonMax, Option.getD_some]
      exact List.mem_dedup.mp (hperm.mem_iff.mp hmem)

theorem dominant_condition_mem {σ : SetOrder} (hσ : SetOrderOK σ)
    {r : List Sample} (hr : r ≠ []) :
    dominant_condition σ r ∈ r.map (fun s => s.weather.main) := by
  simp only [dominant_condition]
  exact pythonMax_setOrder_mem _ hσ (by simpa using hr)

theorem find_dominant_isSome {σ : SetOrder} (hσ : SetOrderOK σ)
    {r : List Sample} (hr : r ≠ []) :
    (r.find? (fun s => s.weather.main == dominant_condition σ r)).isSome := by
  rw [List.find?_isSome]
  rcases List.mem_map.mp (dominant_condition_mem hσ hr) with ⟨s, hs, hsm⟩
  exact ⟨s, hs, by simp [hsm]⟩

/-! Structural lemmas: the _process_forecast loop computes exactly the
aggregation of the maximal contiguous same-date runs, truncated to the
requested day count. -/

theorem aggregate_date (σ : SetOrder) (r : List Sample) :
    (aggregate_day_forecast σ r).date = dateOf r.headI.dt := rfl

theorem process_forecast_loop_eq (σ : SetOrder) (days : Nat) :
    ∀ (rest : List Sample) (d : Nat) (day_data : List Sample) (daily : List ForecastDay),
      day_data ≠ [] →
      process_forecast_loop σ days rest (some d) day_data daily
        = daily ++ ((dateRunsFrom d day_data rest).map (aggregate_day_forecast σ)).take
            (days - daily.length) := by
  intro rest
  induction rest with
  | nil =>
      intro d day_data daily hne
      simp only [process_forecast_loop, dateRunsFrom, List.map]
      by_cases hlt : daily.length < days
      · rw [if_pos ⟨hne, hlt⟩]
        have h1 : ([aggregate_day_forecast σ day_data] : List ForecastDay).length
            ≤ days - daily.length := by simp; omega
        rw [List.take_of_length_le h1]
      · rw [if_neg (fun h => hlt h.2)]
        have h0 : days - daily.length = 0 := by omega
        rw [h0, List.take_zero, List.append_nil]
  | cons s rest ih =>
      intro d day_data daily hne
      by_cases hd : dateOf s.dt = d
      · simp only [process_forecast_loop]
        rw [if_pos (by rw [hd])]
        rw [ih d (day_data ++ [s]) daily (by simp)]
        simp only [dateRunsFrom, if_pos hd]
      · simp only [process_forecast_loop]
        rw [if_neg (by simp only [Option.some.injEq]; exact fun h => hd h.symm)]
        by_cases hlt : daily.length < days
        · rw [if_pos ⟨hne, hlt⟩]
          rw [ih (dateOf s.dt) [s] _ (by simp)]
          simp only [dateRunsFrom, if_neg hd, List.map_cons]
          have hk : days - daily.length = (days - (daily.length + 1)) + 1 := by omega
          rw [hk, List.take_succ_cons]
          simp [List.append_assoc, List.length_append]
        · rw [if_neg (fun h => hlt h.2)]
          rw [ih (dateOf s.dt) [s] daily (by simp)]
          simp only [dateRunsFrom, if_neg hd, List.map_cons]
          have h0 : days - daily.length = 0 := by omega
          rw [h0, List.take_zero, List.take_zero]

theorem process_forecast_eq (σ : SetOrder) (samples : List Sample) (days : Nat) :
    process_forecast σ samples days
      = ((dateRuns samples).map (aggregate_day_forecast σ)).take days := by
  cases samples with
  | nil => simp [process_forecast, process_forecast_loop, dateRuns]
  | cons s rest =>
      unfold process_forecast
      simp only [process_forecast_loop, reduceCtorEq, if_false, ne_eq,
        not_true_eq_false, false_and, if_neg]
      rw [process_forecast_loop_eq σ days rest (dateOf s.dt) [s] [] (by simp)]
      simp only [List.nil_append, List.length_nil, Nat.sub_zero, dateRuns]
      rw [List.take_take, min_self]

theorem dateRunsFrom_ne_nil :
    ∀ (rest : List Sample) (d : Nat) (run : List Sample), run ≠ [] →
      ∀ r ∈ dateRunsFrom d run rest, r ≠ [] := by
  intro rest
  induction rest with
  | nil =>
      intro d run hrun r hr
      simp only [dateRunsFrom, List.mem_singleton] at hr
      rwa [hr]
  | cons s rest ih =>
      intro d run hrun r hr
      simp only [dateRunsFrom] at hr
      by_cases hd : dateOf s.dt = d
      · rw [if_pos hd] at hr
        exact ih d (run ++ [s]) (by simp) r hr
      · rw [if_neg hd] at hr
        rcases List.mem_cons.mp hr with h1 | h1
        · rwa [h1]
        · exact ih (dateOf s.dt) [s] (by simp) r h1

theorem dateRuns_ne_nil (samples : List Sample) :
    ∀ r ∈ dateRuns samples, r ≠ [] := by
  cases samples with
  | nil => intro r hr; exact absurd hr (List.not_mem_nil r)
  | cons s rest =>
      intro r hr
      exact dateRunsFrom_ne_nil rest (dateOf s.dt) [s] (by simp) r hr

theorem dateRunsFrom_spec :
    ∀ (rest : List Sample) (d : Nat) (run : List Sample), run ≠ [] →
      (∀ x ∈ run, dateOf x.dt = d) →
      List.Chain' (· ≤ ·) (d :: rest.map (fun s => dateOf s.dt)) →
      List.Chain' (· < ·) ((dateRunsFrom d run rest).map (fun r => dateOf r.headI.dt))
      ∧ ((dateRunsFrom d run rest).map (fun r => dateOf r.headI.dt)).head? = some d
      ∧ ((dateRunsFrom d run rest).map (fun r => dateOf r.headI.dt)).toFinset
          = insert d ((rest.map (fun s => dateOf s.dt)).toFinset) := by
  intro rest
  induction rest with
  | nil =>
      intro d run hrun hdates _
      have hhead : dateOf run.headI.dt = d := by
        cases run with
        | nil => exact absurd rfl hrun
        | cons x xs => exact hdates x (List.mem_cons_self x xs)
      refine ⟨?_, ?_, ?_⟩ <;> simp [dateRunsFrom, hhead]
  | cons s rest ih =>
      intro d run hrun hdates hchain
      rw [List.map_cons] at hchain
      have hdd := List.chain'_cons.mp hchain
      by_cases hd : dateOf s.dt = d
      · simp only [dateRunsFrom, if_pos hd]
        have hchain2 : List.Chain' (· ≤ ·) (d :: rest.map (fun t => dateOf t.dt)) := by
          rw [← hd]; exact hdd.2
        have hres := ih d (run ++ [s]) (by simp)
          (fun x hx => by
            rcases List.mem_append.mp hx with h1 | h1
            · exact hdates x h1
            · rw [List.mem_singleton.mp h1]; exact hd)
          hchain2
        refine ⟨hres.1, hres.2.1, ?_⟩
        rw [hres.2.2, List.map_cons, List.toFinset_cons, hd]
        exact (Finset.insert_idem _ _).symm
      · simp only [dateRunsFrom, if_neg hd]
        have hres := ih (dateOf s.dt) [s] (by simp) (by simp) hdd.2
        have hhead : dateOf run.headI.dt = d := by
          cases run with
          | nil => exact absurd rfl hrun
          | cons x xs => exact hdates x (List.mem_cons_self x xs)
        have hlt : d < dateOf s.dt := lt_of_le_of_ne hdd.1 (fun h => hd h.symm)
        refine ⟨?_, ?_, ?_⟩
        · rw [List.map_cons, hhead, List.chain'_cons']
          refine ⟨?_, hres.1⟩
          intro y hy
          rw [hres.2.1] at hy
          have hyd : dateOf s.dt = y := by simpa using hy
          rw [← hyd]
          exact hlt
        · rw [List.map_cons, hhead]
          rfl
        · rw [List.map_cons, List.toFinset_cons, hres.2.2, hhead, List.map_cons,
            List.toFinset_cons]

/-! Claim theorems. -/

/-- Claim C1 (code bug evaluation): on the tie run with condition groups
Rain, Clouds, Rain, Clouds, the dominant condition computed by
_aggregate_day_forecast depends on the set-iteration order: the admissible
order revOrder yields Clouds while dedupOrder yields Rain, so the tie does
not deterministically resolve to the first-occurring group Rain. -/
theorem C1_set_order_dependent :
    SetOrderOK revOrder ∧ SetOrderOK dedupOrder
    ∧ dominant_condition revOrder tieRun = "Clouds"
    ∧ dominant_condition dedupOrder tieRun = "Rain"
    ∧ (aggregate_day_forecast revOrder tieRun).main = "Clouds"
    ∧ ("Clouds" : String) ≠ "Rain" :=
  ⟨fun l => List.reverse_perm l.dedup, fun l => List.Perm.refl l.dedup,
    by decide, by decide, by decide, by decide⟩

/-- Claim C2 (counterexample): the forecast fetch does not classify 401 as
Unauthorized nor a transport timeout as Timeout: a 401 forecast response
yields the generic provider-error fault, and a timeout yields the generic
forecast-fetch fault, regardless of body content. -/
theorem C2_counterexample :
    get_forecast dedupOrder "London" 5 (.response 401 "invalid key" ⟨[]⟩)
      = .error (.forecastApiError 401)
    ∧ (Fault.forecastApiError 401).unauthorizedKind = false
    ∧ get_forecast dedupOrder "London" 5 (.exc .timeoutE)
      = .error (.forecastFetchError .timeoutE)
    ∧ (Fault.forecastFetchError .timeoutE).timeoutKind = false :=
  ⟨rfl, rfl, rfl, rfl⟩

/-- Claim C2 (amended): classification per the code.  Current weather: 404
yields NotFound carrying the city, 401 yields Unauthorized regardless of
body, timeout yields Timeout, connection failure yields ConnectionFailure,
any other non-200 yields the provider-error fault with status and body.
Forecast: 404 yields NotFound carrying the city, any other non-200
(including 401) yields the forecast provider-error fault carrying only the
status code, and every transport exception yields the single generic
forecast-fetch fault. -/
theorem C2_amended (city : String) (st : Nat) (body : String)
    (pl : CurrentPayload) (fp : ForecastPayload) (σ : SetOrder) (days : Nat) :
    get_current_weather city (.response 404 body pl) = .error (.currentNotFound city)
    ∧ get_current_weather city (.response 401 body pl) = .error .currentUnauthorized
    ∧ get_current_weather city (.exc .timeoutE) = .error .currentTimeout
    ∧ get_current_weather city (.exc .connectionE) = .error .currentConnectionError
    ∧ (st ≠ 404 → st ≠ 401 → st ≠ 200 →
        get_current_weather city (.response st body pl) = .error (.currentApiError st body))
    ∧ get_forecast σ city days (.response 404 body fp) = .error (.forecastNotFound city)
    ∧ (st ≠ 404 → st ≠ 200 →
        get_forecast σ city days (.response st body fp) = .error (.forecastApiError st))
    ∧ (∀ e, get_forecast σ city days (.exc e) = .error (.forecastFetchError e)) := by
  refine ⟨rfl, rfl, rfl, rfl, ?_, rfl, ?_, fun e => rfl⟩
  · intro h404 h401 h200
    simp [get_current_weather, h404, h401, h200]
  · intro h404 h200
    simp [get_forecast, h404, h200]

/-- Claim C2 witness: the amended classification at concrete statuses. -/
theorem C2_witness :
    get_current_weather "London" (.response 500 "oops" payVis10000)
      = .error (.currentApiError 500 "oops")
    ∧ get_forecast dedupOrder "London" 5 (.response 503 "oops" ⟨[]⟩)
      = .error (.forecastApiError 503) :=
  ⟨(C2_amended "London" 500 "oops" payVis10000 ⟨[]⟩ dedupOrder 5).2.2.2.2.1
      (by decide) (by decide) (by decide),
    (C2_amended "London" 503 "oops" payVis10000 ⟨[]⟩ dedupOrder 5).2.2.2.2.2.2.1
      (by decide) (by decide)⟩

/-- Claim C3: for every sample sequence, set-iteration order and requested
day count the aggregated forecast has at most that many entries; moreover,
aggregating the seven-calendar-day input ex7 with days 3 returns exactly
three entries, for the first three calendar days encountered. -/
theorem C3_length_le (σ : SetOrder) (samples : List Sample) (days : Nat) :
    (process_forecast σ samples days).length ≤ days
    ∧ (process_forecast dedupOrder ex7 3).map (fun f => f.date) = [0, 1, 2]
    ∧ (process_forecast dedupOrder ex7 3).length = 3 := by
  refine ⟨?_, by decide, by decide⟩
  unfold process_forecast
  exact List.length_take_le _ _

/-- Claim C4 (counterexample): the visibility field of the snapshot is not
rounded to one decimal place: a payload with visibility 1234 meters yields
1.234 km, which is not a one-decimal value and differs from the value
rounded to one decimal. -/
theorem C4_counterexample :
    (process_current_weather payVis1234).visibility = 1234 / 1000
    ∧ ¬ OneDecimal ((process_current_weather payVis1234).visibility)
    ∧ (process_current_weather payVis1234).visibility ≠ round1 (1234 / 1000) := by
  have hvis : (process_current_weather payVis1234).visibility = 1234 / 1000 := rfl
  have hnot : ¬ OneDecimal ((1234 : ℚ) / 1000) := by
    rintro ⟨k, hk⟩
    rw [div_eq_div_iff (by norm_num) (by norm_num)] at hk
    have hk2 : (12340 : ℚ) = (k : ℚ) * 1000 := by linarith
    have hk3 : (12340 : ℤ) = k * 1000 := by exact_mod_cast hk2
    omega
  refine ⟨hvis, by rw [hvis]; exact hnot, ?_⟩
  intro heq
  rw [hvis] at heq
  exact hnot (heq ▸ oneDecimal_round1 (1234 / 1000))

/-- Claim C4 (amended): every numeric snapshot field is the raw value
rounded to one decimal place, except humidity, pressure, clouds and wind
direction (integers passed through) and except visibility, which is the
raw meters divided by 1000 without rounding. -/
theorem C4_amended (pl : CurrentPayload) :
    (process_current_weather pl).temperature = round1 pl.temp
    ∧ OneDecimal (process_current_weather pl).temperature
    ∧ (process_current_weather pl).feels_like = round1 pl.feels_like
    ∧ OneDecimal (process_current_weather pl).feels_like
    ∧ (process_current_weather pl).temp_min = round1 pl.temp_min
    ∧ OneDecimal (process_current_weather pl).temp_min
    ∧ (process_current_weather pl).temp_max = round1 pl.temp_max
    ∧ OneDecimal (process_current_weather pl).temp_max
    ∧ (process_current_weather pl).wind_speed = round1 pl.wind_speed
    ∧ OneDecimal (process_current_weather pl).wind_speed
    ∧ (process_current_weather pl).humidity = pl.humidity
    ∧ (process_current_weather pl).pressure = pl.pressure
    ∧ (process_current_weather pl).clouds = pl.clouds
    ∧ (process_current_weather pl).wind_direction = pl.wind_deg.getD 0
    ∧ (process_current_weather pl).visibility = (pl.visibility.getD 0) / 1000 :=
  ⟨rfl, oneDecimal_round1 _, rfl, oneDecimal_round1 _, rfl, oneDecimal_round1 _, rfl,
    oneDecimal_round1 _, rfl, oneDecimal_round1 _, rfl, rfl, rfl, rfl, rfl⟩

/-- Claim C5 (counterexample): the requested day count is not clamped or
validated to the range 1..5: fetching with days 6 over a six-calendar-day
payload succeeds and returns six entries. -/
theorem C5_counterexample :
    get_forecast dedupOrder "Testville" 6 (.response 200 "" ⟨ex6⟩)
      = .ok (process_forecast dedupOrder ex6 6)
    ∧ (process_forecast dedupOrder ex6 6).length = 6
    ∧ ¬ (process_forecast dedupOrder ex6 6).length ≤ 5 :=
  ⟨rfl, by decide, by decide⟩

/-- Claim C5 (amended): get_forecast performs no clamping or validation of
the requested day count, which is passed through unchanged to the
truncation step; the sample count of the provider request equals
min(days * 8, 40) and therefore never exceeds 40. -/
theorem C5_amended (city units : String) (days : Nat) (σ : SetOrder) (body : String)
    (fp : ForecastPayload) :
    (forecast_request city units days).cnt = min (days * 8) 40
    ∧ (forecast_request city units days).cnt ≤ 40
    ∧ get_forecast σ city days (.response 200 body fp)
        = .ok (process_forecast σ fp.list days) :=
  ⟨rfl, Nat.min_le_right _ _, rfl⟩

/-- Claim C7: visibility is the raw meters divided by 1000 with default 0
when the field is absent, wind direction defaults to 0 when absent, and a
payload with visibility 10000 meters yields 10.0 km. -/
theorem C7_visibility (pl : CurrentPayload) :
    (process_current_weather pl).visibility = (pl.visibility.getD 0) / 1000
    ∧ (process_current_weather pl).wind_direction = pl.wind_deg.getD 0
    ∧ (process_current_weather payNoOpt).visibility = 0
    ∧ (process_current_weather payNoOpt).wind_direction = 0
    ∧ (process_current_weather payVis10000).visibility = 10 := by
  refine ⟨rfl, rfl, ?_, rfl, ?_⟩
  · show ((none : Option ℚ).getD 0) / 1000 = 0
    norm_num
  · show ((some (10000 : ℚ)).getD 0) / 1000 = 10
    norm_num

/-- Claim C8: for every set-iteration order and nonempty run, the
aggregated day satisfies temp_min ≤ temp_avg and temp_avg ≤ temp_max, and
a single-sample run yields all three equal to the rounded sample
temperature. -/
theorem C8_temp_order (σ : SetOrder) (day_data : List Sample) (h : day_data ≠ []) :
    ((aggregate_day_forecast σ day_data).temp_min ≤ (aggregate_day_forecast σ day_data).temp_avg
      ∧ (aggregate_day_forecast σ day_data).temp_avg
          ≤ (aggregate_day_forecast σ day_data).temp_max)
    ∧ (∀ s : Sample,
        (aggregate_day_forecast σ [s]).temp_min = round1 s.temp
        ∧ (aggregate_day_forecast σ [s]).temp_avg = round1 s.temp
        ∧ (aggregate_day_forecast σ [s]).temp_max = round1 s.temp) := by
  constructor
  · have htne : day_data.map (fun s => s.temp) ≠ [] := by simpa using h
    exact ⟨round1_mono (pyMin_le_avg htne), round1_mono (avg_le_pyMax htne)⟩
  · intro s
    refine ⟨rfl, ?_, rfl⟩
    have havg : (([s.temp] : List ℚ).sum) / ((([s.temp] : List ℚ).length : ℕ) : ℚ) = s.temp := by
      simp
    calc (aggregate_day_forecast σ [s]).temp_avg
        = round1 ((([s.temp] : List ℚ).sum) / ((([s.temp] : List ℚ).length : ℕ) : ℚ)) := rfl
      _ = round1 s.temp := by rw [havg]

/-- Claim C8 witness: the temperature ordering at the concrete tie run. -/
theorem C8_witness :
    tieRun ≠ []
    ∧ (aggregate_day_forecast dedupOrder tieRun).temp_min
        ≤ (aggregate_day_forecast dedupOrder tieRun).temp_avg
    ∧ (aggregate_day_forecast dedupOrder tieRun).temp_avg
        ≤ (aggregate_day_forecast dedupOrder tieRun).temp_max :=
  ⟨by decide, (C8_temp_order dedupOrder tieRun (by decide)).1.1,
    (C8_temp_order dedupOrder tieRun (by decide)).1.2⟩

/-- Claim C6: on a forty-sample input ordered ascending by timestamp and
spanning exactly five calendar days, aggregation with days 5, under any
set-iteration order, yields exactly five entries with strictly increasing
(hence non-repeating) dates, and the output is exactly the per-run
aggregation of the maximal contiguous same-date runs truncated to five,
with run boundaries exactly at adjacent date changes and no re-sorting. -/
theorem C6_five_days (σ : SetOrder) (samples : List Sample)
    (hlen : samples.length = 40)
    (hsortpw : (samples.map (fun s => s.dt)).Pairwise (· ≤ ·))
    (hspan : ((samples.map (fun s => dateOf s.dt)).dedup).length = 5) :
    (process_forecast σ samples 5).length = 5
    ∧ ((process_forecast σ samples 5).map (fun f => f.date)).Pairwise (· < ·)
    ∧ process_forecast σ samples 5
        = ((dateRuns samples).map (aggregate_day_forecast σ)).take 5 := by
  have hsort : List.Chain' (· ≤ ·) (samples.map (fun s => s.dt)) :=
    List.chain'_iff_pairwise.mpr hsortpw
  cases samples with
  | nil => simp at hlen
  | cons s rest =>
      have hsort2 : List.Chain' (fun a b : Sample => a.dt ≤ b.dt) (s :: rest) :=
        (List.chain'_map _).mp hsort
      have hdsort : List.Chain' (fun a b : Sample => dateOf a.dt ≤ dateOf b.dt) (s :: rest) :=
        List.Chain'.imp (fun a b hab => Nat.div_le_div_right hab) hsort2
      have hdchain : List.Chain' (· ≤ ·) ((s :: rest).map (fun t => dateOf t.dt)) :=
        (List.chain'_map _).mpr hdsort
      rw [List.map_cons] at hdchain
      have hruns : dateRuns (s :: rest) = dateRunsFrom (dateOf s.dt) [s] rest := rfl
      have hspec := dateRunsFrom_spec rest (dateOf s.dt) [s] (by simp) (by simp) hdchain
      rw [← hruns] at hspec
      have hpw : (((dateRuns (s :: rest)).map (fun r => dateOf r.headI.dt))).Pairwise (· < ·) :=
        List.chain'_iff_pairwise.mp hspec.1
      have hnodup : ((dateRuns (s :: rest)).map (fun r => dateOf r.headI.dt)).Nodup :=
        hpw.imp (fun h => Nat.ne_of_lt h)
      have hcard : ((dateRuns (s :: rest)).map (fun r => dateOf r.headI.dt)).length = 5 := by
        calc ((dateRuns (s :: rest)).map (fun r => dateOf r.headI.dt)).length
            = ((dateRuns (s :: rest)).map (fun r => dateOf r.headI.dt)).toFinset.card :=
              (List.toFinset_card_of_nodup hnodup).symm
          _ = (((s :: rest).map (fun t => dateOf t.dt)).toFinset).card := by
              rw [hspec.2.2, List.map_cons, List.toFinset_cons]
          _ = (((s :: rest).map (fun t => dateOf t.dt)).dedup).length := List.card_toFinset _
          _ = 5 := hspan
      have hrslen : (dateRuns (s :: rest)).length = 5 := by
        rwa [List.length_map] at hcard
      have heq := process_forecast_eq σ (s :: rest) 5
      have hmaplen : ((dateRuns (s :: rest)).map (aggregate_day_forecast σ)).length = 5 := by
        rw [List.length_map]; exact hrslen
      have htake : (((dateRuns (s :: rest)).map (aggregate_day_forecast σ)).take 5)
          = (dateRuns (s :: rest)).map (aggregate_day_forecast σ) :=
        List.take_of_length_le (le_of_eq hmaplen)
      have hdates : ((dateRuns (s :: rest)).map (aggregate_day_forecast σ)).map (fun f => f.date)
          = (dateRuns (s :: rest)).map (fun r => dateOf r.headI.dt) := by
        rw [List.map_map]
        rfl
      refine ⟨?_, ?_, heq⟩
      · rw [heq, htake]
        exact hmaplen
      · rw [heq, htake, hdates]
        exact hpw

/-- Claim C6 witness: the concrete forty-sample five-day input ex40. -/
theorem C6_witness :
    ex40.length = 40
    ∧ (ex40.map (fun s => s.dt)).Pairwise (· ≤ ·)
    ∧ ((ex40.map (fun s => dateOf s.dt)).dedup).length = 5
    ∧ (process_forecast dedupOrder ex40 5).length = 5
    ∧ ((process_forecast dedupOrder ex40 5).map (fun f => f.date)).Pairwise (· < ·) :=
  ⟨by decide, by decide, by decide,
    (C6_five_days dedupOrder ex40 (by decide) (by decide) (by decide)).1,
    (C6_five_days dedupOrder ex40 (by decide) (by decide) (by decide)).2.1⟩

/-- Claim C9: the _process_forecast output is the per-run aggregation of
the maximal contiguous same-date runs truncated to the requested day
count, and every such run is nonempty, so inside _aggregate_day_forecast
the divisions by the run length never divide by zero, the access to the
first sample is in bounds, and under any faithful set-iteration order the
search for a sample matching the dominant condition succeeds. -/
theorem C9_safety (σ : SetOrder) (hσ : SetOrderOK σ) (samples : List Sample) (days : Nat) :
    process_forecast σ samples days
      = ((dateRuns samples).map (aggregate_day_forecast σ)).take days
    ∧ (∀ r ∈ dateRuns samples, r ≠ [] ∧ r.length ≠ 0 ∧ r.headI ∈ r
        ∧ (r.find? (fun s => s.weather.main == dominant_condition σ r)).isSome) := by
  refine ⟨process_forecast_eq σ samples days, ?_⟩
  intro r hr
  have hne := dateRuns_ne_nil samples r hr
  refine ⟨hne, ?_, ?_, find_dominant_isSome hσ hne⟩
  · exact Nat.pos_iff_ne_zero.mp (List.length_pos.mpr hne)
  · cases r with
    | nil => exact absurd rfl hne
    | cons x xs => exact List.mem_cons_self x xs

/-- Claim C9 witness: the run decomposition at the concrete input ex40. -/
theorem C9_witness :
    process_forecast dedupOrder ex40 5
      = ((dateRuns ex40).map (aggregate_day_forecast dedupOrder)).take 5 :=
  (C9_safety dedupOrder (fun l => List.Perm.refl l.dedup) ex40 5).1

/-- Claim C10: a single toggle always lands on celsius or fahrenheit,
whatever the starting session string, and on the two supported values the
toggle is an involution. -/
theorem C10_toggle (u : String) :
    (toggle_temperature_unit u = "celsius" ∨ toggle_temperature_unit u = "fahrenheit")
    ∧ toggle_temperature_unit (toggle_temperature_unit "celsius") = "celsius"
    ∧ toggle_temperature_unit (toggle_temperature_unit "fahrenheit") = "fahrenheit"
    ∧ toggle_temperature_unit "kelvin" = "celsius" := by
  refine ⟨?_, by decide, by decide, by decide⟩
  unfold toggle_temperature_unit
  by_cases h : u = "celsius"
  · rw [if_pos h]; right; rfl
  · rw [if_neg h]; left; rfl

end Weather
